import Mathlib

/-!
Verification of the Letterboxd diary scraper (src/scraper.py) and the CSV
tag/rewatch decoding of the dashboard (src/app.py), as a shallow embedding.

Network access is abstracted as a Site oracle: a fetch that fails in any way
(timeout, non-200 status, raised exception) is modelled as the oracle
returning none, exactly matching _fetch, whose try/except collapses every
failure to None.  HTML documents are abstracted to the data the CSS
selectors of the source extract from them: a listing row is modelled by the
texts/hrefs/class lists the row-level selectors yield.
-/

namespace LetterboxdStats

/-- One diary row of a listing (or per-date) page, as seen through the CSS
selectors used by src/scraper.py.  Each field carries exactly what the
corresponding select/select_one call would produce:
  titleA   : the title anchor, as (stripped text, href), if found;
  yearEl   : the stripped text of the release-year element, if found;
  ratingEl : the class list of the rating element, if found;
  dayHref  : the href of the day-cell anchor, if found;
  rewatchEl: whether a rewatch marker element is present;
  tagSels  : for each tag selector tried by _parse_tags, in order, the
             stripped texts of the elements that selector matches. -/
structure Row where
  titleA : Option (String × String)
  yearEl : Option String
  ratingEl : Option (List String)
  dayHref : Option String
  rewatchEl : Bool
  tagSels : List (List String)
deriving DecidableEq, Repr

/-- A fetched diary listing page: its rows plus whether the
.paginate-nextprev a.next anchor is present. -/
structure ListingPage where
  rows : List Row
  nextAnchor : Bool
deriving DecidableEq, Repr

/-- The remote site, keyed the way the source derives URLs: listing pages by
page number, per-date pages by the YYYY-MM-DD date string.  none models any
transport failure or non-200 response (see _fetch). -/
structure Site where
  listing : Nat → Option ListingPage
  datePage : String → Option (List Row)

/-- DiaryEntry from src/scraper.py (dataclass). -/
structure DiaryEntry where
  title : String
  year : Option String := none
  rating : Option ℚ := none
  date : Option String := none
  tags : List String := []
  rewatch : Bool := false
  slug : Option String := none
deriving DecidableEq, Repr

/-- Python truthiness of an optional string: None and the empty string are
falsy, every other string is truthy. -/
def strTruthy : Option String → Bool
  | none => false
  | some s => !(s == "")

/-- Value of a list of decimal digit characters, as int() computes it. -/
def digitsVal (l : List Char) : Nat :=
  l.foldl (fun n c => 10 * n + (c.toNat - 48)) 0

/-- The regex match rated-(\d+)$ anchored at both ends of a class token:
the token must be "rated-" followed by one or more digits; returns the
numeric suffix. -/
def ratedSuffix (cls : String) : Option Nat :=
  let l := cls.toList
  if "rated-".toList.isPrefixOf l then
    let ds := l.drop 6
    if !ds.isEmpty && ds.all Char.isDigit then some (digitsVal ds) else none
  else none

/-- The exact rational n/2, built in normalized form so that the kernel can
evaluate it (half_eq below proves half n = n / 2).  The source stores the
Python float int(m.group(1)) / 2, which is exact for half-integers. -/
def half (n : Nat) : ℚ :=
  if h : n % 2 = 0 then ((n / 2 : Nat) : ℚ)
  else ⟨n, 2, by omega, by
    rw [Int.natAbs_ofNat]
    exact Nat.coprime_two_right.mpr (Nat.odd_iff.mpr (by omega))⟩

/-- _parse_rating: scan the class list of the rating element for the first
token matching rated-(\d+)$ and return N/2; None if the element is absent
or no token matches. -/
def _parse_rating (el : Option (List String)) : Option ℚ :=
  match el with
  | none => none
  | some classes =>
    match classes.findSome? ratedSuffix with
    | some n => some (half n)
    | none => none

/-- _parse_tags: try the tag selectors in order; for each, keep the
non-empty stripped texts; the first selector yielding a non-empty list
wins; otherwise []. -/
def _parse_tags : List (List String) → List String
  | [] => []
  | sel :: rest =>
    let tags := sel.filter (fun t => !(t == ""))
    if !tags.isEmpty then tags else _parse_tags rest

/-- One attempt of the regex /film/([^/]+)/ at the head of the character
list: "/film/" followed by a maximal non-empty run of non-slash characters
followed by "/"; returns the captured run. -/
def filmSlugAt (l : List Char) : Option String :=
  if "/film/".toList.isPrefixOf l then
    let rest := l.drop 6
    let seg := rest.takeWhile (fun c => !(c == '/'))
    if !seg.isEmpty && !(rest.drop seg.length).isEmpty then
      some (String.mk seg)
    else none
  else none

/-- re.search of /film/([^/]+)/: leftmost position where the pattern
matches. -/
def searchFilmSlug : List Char → Option String
  | [] => none
  | c :: cs =>
    match filmSlugAt (c :: cs) with
    | some s => some s
    | none => searchFilmSlug cs

/-- One attempt of the regex /for/(\d{4})/(\d{2})/(\d{2})/ at the head of
the character list; on success returns the reassembled "YYYY-MM-DD". -/
def forDateAt (l : List Char) : Option String :=
  if "/for/".toList.isPrefixOf l then
    let r1 := l.drop 5
    let y := r1.take 4
    let r2 := r1.drop 4
    if y.length == 4 && y.all Char.isDigit && r2.take 1 == ['/'] then
      let m := (r2.drop 1).take 2
      let r3 := (r2.drop 1).drop 2
      if m.length == 2 && m.all Char.isDigit && r3.take 1 == ['/'] then
        let d := (r3.drop 1).take 2
        let r4 := (r3.drop 1).drop 2
        if d.length == 2 && d.all Char.isDigit && r4.take 1 == ['/'] then
          some (String.mk y ++ "-" ++ String.mk m ++ "-" ++ String.mk d)
        else none
      else none
    else none
  else none

/-- re.search of /for/(\d{4})/(\d{2})/(\d{2})/: leftmost match. -/
def searchForDate : List Char → Option String
  | [] => none
  | c :: cs =>
    match forDateAt (c :: cs) with
    | some s => some s
    | none => searchForDate cs

/-- Title text of a row: the stripped text of the title anchor, or the ""
the DiaryEntry was initialised with when no anchor is found. -/
def rowTitle (r : Row) : String :=
  match r.titleA with
  | some (t, _) => t
  | none => ""

/-- Film slug of a row: the /film/([^/]+)/ capture from the title anchor
href, when the anchor exists and the regex matches. -/
def rowSlug (r : Row) : Option String :=
  match r.titleA with
  | some (_, href) => searchFilmSlug href.toList
  | none => none

/-- Watched date of a row: the /for/YYYY/MM/DD/ capture from the day-cell
anchor href, when the anchor exists and the regex matches. -/
def rowDate (r : Row) : Option String :=
  match r.dayHref with
  | some href => searchForDate href.toList
  | none => none

/-- The per-row body of _scrape_listing_page: build the DiaryEntry from the
row, then keep it only if its title is non-empty (Python: if e.title). -/
def parseRow (r : Row) : Option DiaryEntry :=
  let e : DiaryEntry :=
    { title := rowTitle r
      year := r.yearEl
      rating := _parse_rating r.ratingEl
      date := rowDate r
      tags := _parse_tags r.tagSels
      rewatch := r.rewatchEl
      slug := rowSlug r }
  if e.title = "" then none else some e

/-- _scrape_listing_page: on fetch failure return ([], False); otherwise
parse every diary row (rows whose title does not parse are dropped) and
report whether a next-page anchor exists. -/
def _scrape_listing_page (site : Site) (page : Nat) : List DiaryEntry × Bool :=
  match site.listing page with
  | none => ([], false)
  | some p => (p.rows.filterMap parseRow, p.nextAnchor)

/-- Entries parsed from one listing page. -/
def pageEntries (site : Site) (page : Nat) : List DiaryEntry :=
  (_scrape_listing_page site page).1

/-- has_next flag of one listing page. -/
def pageHasNext (site : Site) (page : Nat) : Bool :=
  (_scrape_listing_page site page).2

/-- Python substring containment (needle in hay) on character lists. -/
def charsInfix (needle : List Char) : List Char → Bool
  | [] => needle.isEmpty
  | c :: cs => needle.isPrefixOf (c :: cs) || charsInfix needle cs

/-- The skip test of _scrape_date_page_tags for a known slug:
title_a exists and the slug is not a substring of its href. -/
def slugSkip (slug : String) (r : Row) : Bool :=
  match r.titleA with
  | some (_, href) => !(charsInfix slug.toList href.toList)
  | none => false

/-- The row loop of _scrape_date_page_tags.  With a truthy slug: skip rows
whose title anchor does not contain the slug; at the first non-skipped row
return its tags (possibly []).  With no truthy slug: return the tags of
the first row having any, else keep scanning; [] when the rows run out. -/
def datePageRows (slug : Option String) : List Row → List String
  | [] => []
  | r :: rest =>
    if strTruthy slug then
      if slugSkip (slug.getD "") r then
        datePageRows slug rest
      else
        let tags := _parse_tags r.tagSels
        if !tags.isEmpty then tags else []
    else
      let tags := _parse_tags r.tagSels
      if !tags.isEmpty then tags else datePageRows slug rest

/-- _scrape_date_page_tags: empty date short-circuits; fetch failure yields
[]; otherwise scan the rows of the per-date page. -/
def _scrape_date_page_tags (site : Site) (date : String) (slug : Option String) :
    List String :=
  if date = "" then []
  else
    match site.datePage date with
    | none => []
    | some rows => datePageRows slug rows

/-- The on_progress callback, modelled as an optional observer that may
thread an internal state of its own but has no channel back into the
scraper: scrape_user passes it a message and an optional fraction and
ignores everything else about it. -/
abbrev ProgressCb (σ : Type) := Option (σ → String → Option ℚ → σ)

/-- if on_progress: on_progress(message, fraction). -/
def notify {σ : Type} (f : ProgressCb σ) (s : σ) (msg : String) (frac : Option ℚ) : σ :=
  match f with
  | none => s
  | some g => g s msg frac

/-- A network fetch issued by the scraper: a listing page fetch (by page
number) or a per-date page fetch (by date string). -/
inductive Fetch where
  | listing (page : Nat)
  | datePage (date : String)
deriving DecidableEq, Repr

/-- Phase-2 eligibility (Python: not e.tags and e.date). -/
def eligible (e : DiaryEntry) : Bool :=
  e.tags.isEmpty && strTruthy e.date

/-- The phase-2 update of a single record: an eligible record has its tags
replaced by the per-date page result; every other record is untouched. -/
def backfillTags (site : Site) (e : DiaryEntry) : DiaryEntry :=
  if eligible e then
    { e with tags := _scrape_date_page_tags site (e.date.getD "") e.slug }
  else e

/-- The progress notifications of the phase-2 loop, folded over the
needs_tags work list in order (message text: quote characters that the
source puts around the title are omitted). -/
def phase2Notify {σ : Type} (f : ProgressCb σ) (total : Nat) : Nat → σ → List DiaryEntry → σ
  | _, s, [] => s
  | i, s, e :: rest =>
    phase2Notify f total (i + 1)
      (notify f s
        ("Fetching tags for " ++ e.title ++ " (" ++ toString (i + 1) ++ "/" ++
          toString total ++ ")…")
        (some ((i + 1 : ℚ) / (total : ℚ)))) rest

/-- Phase 2 of scrape_user: compute the needs_tags work list once from the
phase-1 snapshot, notify progress per work item, fetch the per-date page of
each work item, and replace the tags of exactly the eligible records. -/
def phase2 (site : Site) (σ : Type) (f : ProgressCb σ) (s : σ)
    (all_entries : List DiaryEntry) : List DiaryEntry × σ × List Fetch :=
  let needs_tags := all_entries.filter eligible
  let total := needs_tags.length
  let s1 := phase2Notify f total 0 s needs_tags
  let tr := needs_tags.map (fun e => Fetch.datePage (e.date.getD ""))
  (all_entries.map (backfillTags site), s1, tr)

/-- The while-True loop of scrape_user, with explicit fuel (none = the loop
did not finish within the fuel), the accumulated entries, the progress
state and the trace of fetches issued so far.  The early return [] for an
empty first page bypasses phase 2, exactly as in the source. -/
def scrapeLoop (site : Site) (σ : Type) (f : ProgressCb σ) (deep_scan : Bool) :
    Nat → Nat → List DiaryEntry → σ → List Fetch →
    Option (List DiaryEntry × σ × List Fetch)
  | 0, _, _, _, _ => none
  | fuel + 1, page, all_entries, s, tr =>
    let s1 := notify f s ("Fetching diary page " ++ toString page ++ "…") none
    let entries := pageEntries site page
    let has_next := pageHasNext site page
    let tr1 := tr ++ [Fetch.listing page]
    if entries.isEmpty && page == 1 then
      some ([], s1, tr1)
    else
      let acc := all_entries ++ entries
      if has_next then
        scrapeLoop site σ f deep_scan fuel (page + 1) acc s1 tr1
      else if deep_scan then
        let p2 := phase2 site σ f s1 acc
        some (p2.1, p2.2.1, tr1 ++ p2.2.2)
      else
        some (acc, s1, tr1)

/-- scrape_user: run the listing loop from page 1 with no accumulated
entries, then (unless the page-1-empty early return fired) the optional
deep-scan phase. -/
def scrape_user (site : Site) (σ : Type) (on_progress : ProgressCb σ) (s0 : σ)
    (deep_scan : Bool) (fuel : Nat) : Option (List DiaryEntry × σ × List Fetch) :=
  scrapeLoop site σ on_progress deep_scan fuel 1 [] s0 []

/-- Concatenation of the parsed rows of count consecutive listing pages
starting at page start, in fetch order. -/
def pagesConcat (site : Site) : Nat → Nat → List DiaryEntry
  | _, 0 => []
  | start, count + 1 => pageEntries site start ++ pagesConcat site (start + 1) count

/-- Erase the tags of a record, keeping every other field: two records
agree under clearTags exactly when they differ at most in tags. -/
def clearTags (e : DiaryEntry) : DiaryEntry :=
  { e with tags := [] }

/-- The observable part of a scrape outcome: the returned records and the
fetches issued, without the observer state. -/
def resultView {σ : Type} (r : Option (List DiaryEntry × σ × List Fetch)) :
    Option (List DiaryEntry × List Fetch) :=
  r.map (fun x => (x.1, x.2.2))

/-- Whitespace as stripped by str.strip (ASCII subset). -/
def isSpaceChar (c : Char) : Bool :=
  c == ' ' || c == '\t' || c == '\n' || c == '\r'

/-- str.strip on a character list: drop whitespace from both ends. -/
def trimChars (l : List Char) : List Char :=
  ((l.dropWhile isSpaceChar).reverse.dropWhile isSpaceChar).reverse

/-- str.strip. -/
def pyStrip (s : String) : String :=
  String.mk (trimChars s.toList)

/-- str.lower (ASCII). -/
def pyLower (s : String) : String :=
  String.mk (s.toList.map Char.toLower)

/-- str.split on a comma: "".split yields [""], and every comma produces a
boundary. -/
def splitComma : List Char → List (List Char)
  | [] => [[]]
  | c :: cs =>
    if c == ',' then [] :: splitComma cs
    else
      match splitComma cs with
      | [] => [[c]]
      | p :: ps => (c :: p) :: ps

/-- The tag-splitting rule the spec states for the CSV path: split on
comma, trim whitespace, drop empty pieces.  (Spec-side definition, to be
compared with csvTags below.) -/
def splitTrimDrop (x : String) : List String :=
  (((splitComma x.toList).map (fun p => String.mk (trimChars p))).filter
    (fun t => !(t == "")))

/-- The tags_list decoding of src/app.py: a cell whose stripped value is ""
or "nan" (the pandas missing-value rendering) decodes to []; any other
cell is split on comma, stripped piecewise, with empty pieces dropped. -/
def csvTags (x : String) : List String :=
  if pyStrip x = "" ∨ pyStrip x = "nan" then []
  else splitTrimDrop x

/-- The rewatch decoding of src/app.py: strip, lowercase, compare to
"yes". -/
def csvRewatch (s : String) : Bool :=
  pyLower (pyStrip s) == "yes"

/-- The tags of the first row of a per-date page that has a non-empty tag
set, if any row does.  (Specification-side description of the no-slug
behavior of _scrape_date_page_tags.) -/
def firstRowTags (rows : List Row) : Option (List String) :=
  rows.findSome? (fun r =>
    let t := _parse_tags r.tagSels
    if t.isEmpty then none else some t)

/-- Page numbers of the listing fetches of a trace, in order. -/
def listingsOf : List Fetch → List Nat
  | [] => []
  | Fetch.listing p :: rest => p :: listingsOf rest
  | Fetch.datePage _ :: rest => listingsOf rest

/-- The ascending page list start, start+1, ..., start+count-1. -/
def rangeAsc : Nat → Nat → List Nat
  | _, 0 => []
  | start, count + 1 => start :: rangeAsc (start + 1) count

/-! Concrete fixtures used by the per-claim witness and counterexample
theorems. -/

def c1rowA : Row :=
  ⟨some ("Film A", "/film/film-a/"), some "2001", some ["rating", "rated-8"],
    some "/u/films/diary/for/2024/02/28/", false, [[], ["cinema"]]⟩

def c1rowB : Row :=
  ⟨some ("B", ""), none, some ["rated-x"], none, true, []⟩

def c1site : Site :=
  ⟨fun p =>
    if p = 1 then some ⟨[c1rowA], true⟩
    else if p = 2 then some ⟨[c1rowB], false⟩
    else none,
  fun _ => none⟩

def c1eA : DiaryEntry :=
  ⟨"Film A", some "2001", some (half 8), some "2024-02-28", ["cinema"], false, some "film-a"⟩

def c1eB : DiaryEntry :=
  ⟨"B", none, none, none, [], true, none⟩

def c2site : Site := ⟨fun _ => none, fun _ => none⟩

def c3site : Site := ⟨fun _ => none, fun _ => none⟩

def c4tagRow : Row :=
  ⟨some ("C", "/film/film-c/"), none, none, none, false, [["rainy-day"]]⟩

def c4site : Site :=
  ⟨fun _ => none, fun d => if d = "2024-03-01" then some [c4tagRow] else none⟩

def c4entry : DiaryEntry :=
  ⟨"C", none, none, some "2024-03-01", [], false, some "film-c"⟩

def c6row : Row := ⟨some ("F", ""), none, none, none, false, []⟩

def c6emptyRow : Row := ⟨none, none, none, none, false, [["z"]]⟩

def c6site : Site :=
  ⟨fun p => if p = 1 then some ⟨[c6row], false⟩ else none, fun _ => none⟩

def c6entry : DiaryEntry := ⟨"F", none, none, none, [], false, none⟩

def c7row : Row := ⟨none, none, none, none, false, [["x"]]⟩

def c7site : Site :=
  ⟨fun _ => none, fun d => if d = "2024-02-28" then some [c7row] else none⟩

def c7wrow : Row :=
  ⟨some ("T", "/film/other-film/"), none, none, none, false, [["t1"]]⟩

def c7wsite : Site :=
  ⟨fun _ => none, fun d => if d = "2024-04-01" then some [c7wrow] else none⟩

def c10site : Site :=
  ⟨fun p => if p = 2 then some ⟨[], true⟩ else none, fun _ => none⟩

/-! Helper lemmas. -/

theorem half_eq (n : Nat) : half n = (n : ℚ) / 2 := by
  unfold half
  split
  · rename_i h
    obtain ⟨k, rfl⟩ := Nat.dvd_of_mod_eq_zero h
    push_cast [Nat.mul_div_cancel_left k (by norm_num : 0 < 2)]
    ring
  · rw [Rat.mk'_eq_divInt, Rat.divInt_eq_div]
    norm_num

theorem parseRow_eq_some {r : Row} {e : DiaryEntry} (h : parseRow r = some e) :
    e.title = rowTitle r ∧ e.title ≠ "" := by
  simp only [parseRow] at h
  split at h
  · simp at h
  · rename_i hne
    injection h with h
    subst h
    exact ⟨rfl, hne⟩

theorem mem_listing_title {site : Site} {page : Nat} {e : DiaryEntry}
    (h : e ∈ (_scrape_listing_page site page).1) : e.title ≠ "" := by
  unfold _scrape_listing_page at h
  cases hs : site.listing page with
  | none => rw [hs] at h; simp at h
  | some p =>
    rw [hs] at h
    simp only at h
    obtain ⟨r, _, hr⟩ := List.mem_filterMap.mp h
    exact (parseRow_eq_some hr).2

theorem clearTags_backfill (site : Site) (e : DiaryEntry) :
    clearTags (backfillTags site e) = clearTags e := by
  unfold backfillTags clearTags
  split <;> rfl

theorem map_clearTags_backfill (site : Site) (es : List DiaryEntry) :
    (es.map (backfillTags site)).map clearTags = es.map clearTags := by
  induction es with
  | nil => rfl
  | cons a l ih => simp [clearTags_backfill, ih]

theorem phase2_fst (site : Site) (σ : Type) (f : ProgressCb σ) (s : σ)
    (es : List DiaryEntry) :
    (phase2 site σ f s es).1 = es.map (backfillTags site) := rfl

theorem phase2_trace (site : Site) (σ : Type) (f : ProgressCb σ) (s : σ)
    (es : List DiaryEntry) :
    (phase2 site σ f s es).2.2 =
      (es.filter eligible).map (fun e => Fetch.datePage (e.date.getD "")) := rfl

theorem listingsOf_append (a b : List Fetch) :
    listingsOf (a ++ b) = listingsOf a ++ listingsOf b := by
  induction a with
  | nil => rfl
  | cons x rest ih => cases x <;> simp [listingsOf, ih]

theorem listingsOf_datePageMap (l : List DiaryEntry) :
    listingsOf (l.map (fun e => Fetch.datePage (e.date.getD ""))) = [] := by
  induction l with
  | nil => rfl
  | cons x rest ih => simp [listingsOf, ih]

theorem rangeAsc_length (start count : Nat) : (rangeAsc start count).length = count := by
  induction count generalizing start with
  | zero => rfl
  | succ n ih => simp [rangeAsc, ih]

theorem mem_pagesConcat {site : Site} {e : DiaryEntry} :
    ∀ {start count : Nat}, e ∈ pagesConcat site start count →
      ∃ p, e ∈ pageEntries site p := by
  intro start count
  induction count generalizing start with
  | zero => intro h; simp [pagesConcat] at h
  | succ n ih =>
    intro h
    rcases List.mem_append.mp h with h1 | h2
    · exact ⟨start, h1⟩
    · exact ih h2

/-- Soundness of the listing loop: a completed run either took the
page-1-empty early return, or its output is (modulo phase-2 tag mutation)
the accumulator followed by the concatenation of P consecutive pages
starting at the entry page, with exactly those pages fetched in ascending
order. -/
theorem scrapeLoop_spec (site : Site) (σ : Type) (f : ProgressCb σ) (deep : Bool) :
    ∀ (fuel page : Nat) (acc : List DiaryEntry) (s : σ) (tr : List Fetch)
      (es : List DiaryEntry) (s' : σ) (tr' : List Fetch),
      1 ≤ page →
      scrapeLoop site σ f deep fuel page acc s tr = some (es, s', tr') →
      (es = [] ∧ page = 1 ∧ pageEntries site 1 = [] ∧ tr' = tr ++ [Fetch.listing 1]) ∨
      ∃ P, 1 ≤ P ∧
        es.map clearTags = (acc ++ pagesConcat site page P).map clearTags ∧
        (deep = false → es = acc ++ pagesConcat site page P) ∧
        listingsOf tr' = listingsOf tr ++ rangeAsc page P := by
  intro fuel
  induction fuel with
  | zero =>
    intro page acc s tr es s' tr' hp h
    simp [scrapeLoop] at h
  | succ n ih =>
    intro page acc s tr es s' tr' hp h
    simp only [scrapeLoop] at h
    by_cases hE : ((pageEntries site page).isEmpty && (page == 1)) = true
    · rw [if_pos hE] at h
      simp only [Option.some.injEq, Prod.mk.injEq] at h
      obtain ⟨h1, _, h3⟩ := h
      simp only [Bool.and_eq_true, List.isEmpty_iff, beq_iff_eq] at hE
      obtain ⟨hE1, hE2⟩ := hE
      subst hE2
      exact Or.inl ⟨h1.symm, rfl, hE1, h3.symm⟩
    · rw [if_neg hE] at h
      by_cases hN : pageHasNext site page = true
      · rw [if_pos hN] at h
        rcases ih (page + 1) (acc ++ pageEntries site page) _ _ es s' tr' (by omega) h with
          hL | ⟨P, hP, hmap, hex, htr⟩
        · exact absurd hL.2.1 (by omega)
        · refine Or.inr ⟨P + 1, by omega, ?_, ?_, ?_⟩
          · rw [show pagesConcat site page (P + 1) =
                  pageEntries site page ++ pagesConcat site (page + 1) P from rfl,
              ← List.append_assoc]
            exact hmap
          · intro hd
            rw [show pagesConcat site page (P + 1) =
                  pageEntries site page ++ pagesConcat site (page + 1) P from rfl,
              ← List.append_assoc]
            exact hex hd
          · rw [htr, listingsOf_append]
            simp [listingsOf, rangeAsc]
      · rw [if_neg hN] at h
        by_cases hD : deep = true
        · rw [if_pos hD] at h
          simp only [Option.some.injEq, Prod.mk.injEq] at h
          obtain ⟨h1, _, h3⟩ := h
          refine Or.inr ⟨1, le_refl 1, ?_, ?_, ?_⟩
          · rw [← h1, phase2_fst, map_clearTags_backfill]
            simp [pagesConcat]
          · intro hd
            rw [hD] at hd
            exact absurd hd (by decide)
          · rw [← h3, listingsOf_append, listingsOf_append, phase2_trace,
              listingsOf_datePageMap]
            simp [listingsOf, rangeAsc]
        · rw [if_neg hD] at h
          simp only [Option.some.injEq, Prod.mk.injEq] at h
          obtain ⟨h1, _, h3⟩ := h
          refine Or.inr ⟨1, le_refl 1, ?_, ?_, ?_⟩
          · rw [← h1]
            simp [pagesConcat]
          · intro _
            rw [← h1]
            simp [pagesConcat]
          · rw [← h3, listingsOf_append]
            simp [listingsOf, rangeAsc]

/-- The records returned and the fetches issued by the listing loop do not
depend on the observer: its state never flows back into the scrape. -/
theorem scrapeLoop_view (site : Site) (deep : Bool) :
    ∀ (fuel page : Nat) (acc : List DiaryEntry) (tr : List Fetch)
      (σ₁ σ₂ : Type) (f₁ : ProgressCb σ₁) (f₂ : ProgressCb σ₂) (s₁ : σ₁) (s₂ : σ₂),
      resultView (scrapeLoop site σ₁ f₁ deep fuel page acc s₁ tr) =
      resultView (scrapeLoop site σ₂ f₂ deep fuel page acc s₂ tr) := by
  intro fuel
  induction fuel with
  | zero => intro page acc tr σ₁ σ₂ f₁ f₂ s₁ s₂; rfl
  | succ n ih =>
    intro page acc tr σ₁ σ₂ f₁ f₂ s₁ s₂
    simp only [scrapeLoop]
    by_cases hE : ((pageEntries site page).isEmpty && (page == 1)) = true
    · rw [if_pos hE, if_pos hE]
      rfl
    · rw [if_neg hE, if_neg hE]
      by_cases hN : pageHasNext site page = true
      · rw [if_pos hN, if_pos hN]
        exact ih (page + 1) _ _ σ₁ σ₂ f₁ f₂ _ _
      · rw [if_neg hN, if_neg hN]
        by_cases hD : deep = true
        · rw [if_pos hD, if_pos hD]
          rfl
        · rw [if_neg hD, if_neg hD]
          rfl

/-! Claim theorems. -/

/-- C1: every completed scrape returns, in order, the concatenation of the
parsed rows of listing pages 1..P, where 1..P (ascending) are exactly the
listing pages fetched; with deep_scan off the equality is literal, and in
every mode the returned sequence agrees with that concatenation record for
record up to the tags field, so phase 2 never reorders, removes, or
inserts records. -/
theorem scrape_order_preservation (site : Site) (σ : Type) (f : ProgressCb σ)
    (s0 : σ) (deep : Bool) (fuel : Nat) (es : List DiaryEntry) (s : σ)
    (tr : List Fetch)
    (h : scrape_user site σ f s0 deep fuel = some (es, s, tr)) :
    1 ≤ (listingsOf tr).length ∧
    listingsOf tr = rangeAsc 1 ((listingsOf tr).length) ∧
    es.map clearTags = (pagesConcat site 1 ((listingsOf tr).length)).map clearTags ∧
    (deep = false → es = pagesConcat site 1 ((listingsOf tr).length)) := by
  rcases scrapeLoop_spec site σ f deep fuel 1 [] s0 [] es s tr (le_refl 1) h with
    ⟨rfl, _, hpe, rfl⟩ | ⟨P, hP, hmap, hex, htr⟩
  · refine ⟨by simp [listingsOf], ?_, ?_, ?_⟩
    · simp [listingsOf, rangeAsc]
    · simp [listingsOf, pagesConcat, hpe]
    · intro _
      simp [listingsOf, pagesConcat, hpe]
  · have htr' : listingsOf tr = rangeAsc 1 P := by simpa [listingsOf] using htr
    have hlen : (listingsOf tr).length = P := by rw [htr', rangeAsc_length]
    refine ⟨by omega, ?_, ?_, ?_⟩
    · rw [hlen, htr']
    · rw [hlen]
      simpa using hmap
    · intro hd
      rw [hlen]
      simpa using hex hd

/-- C1 witness: a two-page scrape of a concrete site, evaluated. -/
theorem scrape_order_preservation_witness :
    1 ≤ (listingsOf [Fetch.listing 1, Fetch.listing 2]).length ∧
    listingsOf [Fetch.listing 1, Fetch.listing 2] =
      rangeAsc 1 ((listingsOf [Fetch.listing 1, Fetch.listing 2]).length) ∧
    ([c1eA, c1eB]).map clearTags =
      (pagesConcat c1site 1
        ((listingsOf [Fetch.listing 1, Fetch.listing 2]).length)).map clearTags ∧
    (false = false →
      [c1eA, c1eB] = pagesConcat c1site 1
        ((listingsOf [Fetch.listing 1, Fetch.listing 2]).length)) :=
  scrape_order_preservation c1site Unit none () false 3 [c1eA, c1eB] ()
    [Fetch.listing 1, Fetch.listing 2] (by decide)

/-- C2: if page 1 parses to zero records, the scrape returns the empty
sequence at once, having issued exactly one fetch (the page-1 listing
fetch): no page-2 fetch and no per-date fetch, for any deep_scan. -/
theorem empty_first_page_terminal (site : Site) (σ : Type) (f : ProgressCb σ)
    (s0 : σ) (deep : Bool) (fuel : Nat)
    (h : pageEntries site 1 = []) :
    scrape_user site σ f s0 deep (fuel + 1) =
      some ([], notify f s0 ("Fetching diary page " ++ toString 1 ++ "…") none,
        [Fetch.listing 1]) := by
  unfold scrape_user
  rw [scrapeLoop]
  simp [h]

/-- C2 witness: a site whose page-1 fetch fails, with deep_scan on. -/
theorem empty_first_page_terminal_witness :
    scrape_user c2site Unit none () true (0 + 1) =
      some ([], notify none () ("Fetching diary page " ++ toString 1 ++ "…") none,
        [Fetch.listing 1]) :=
  empty_first_page_terminal c2site Unit none () true 0 (by decide)

/-- C3: whenever the underlying fetch of a listing page fails (the oracle
returns none, covering timeouts, non-200 statuses and raised exceptions),
_scrape_listing_page returns exactly ([], false); in this total embedding
no exception can propagate. -/
theorem fetch_failure_soft (site : Site) (page : Nat)
    (h : site.listing page = none) :
    _scrape_listing_page site page = ([], false) := by
  unfold _scrape_listing_page
  rw [h]

/-- C3 witness: a concrete always-failing site. -/
theorem fetch_failure_soft_witness : _scrape_listing_page c3site 1 = ([], false) :=
  fetch_failure_soft c3site 1 rfl

/-- C8: the scrape returns the identical record sequence and issues the
identical fetches whatever the on_progress argument is — absent, a no-op,
or an arbitrary state-threading observer. -/
theorem progress_noninterference (site : Site) (deep : Bool) (fuel : Nat)
    (σ₁ σ₂ : Type) (f₁ : ProgressCb σ₁) (f₂ : ProgressCb σ₂) (s₁ : σ₁) (s₂ : σ₂) :
    resultView (scrape_user site σ₁ f₁ s₁ deep fuel) =
    resultView (scrape_user site σ₂ f₂ s₂ deep fuel) :=
  scrapeLoop_view site deep fuel 1 [] [] σ₁ σ₂ f₁ f₂ s₁ s₂

/-- C4: phase 2 is a frame-respecting update of the phase-1 snapshot.  For
every position of the snapshot: the output has the same length; a record
that was not eligible (eligibility, computed on the snapshot value itself,
holds exactly when tags was empty and the watched date was present — the
two coincide because a parsed date is never the empty string, hypothesis
hdate) is returned unchanged; an eligible record is returned with only its
tags field replaced, by the per-date page result for its own date and
slug. -/
theorem phase2_frame (site : Site) (σ : Type) (f : ProgressCb σ) (s : σ)
    (es : List DiaryEntry) (i : Nat) (e : DiaryEntry)
    (h : es[i]? = some e) (hdate : e.date ≠ some "") :
    (phase2 site σ f s es).1.length = es.length ∧
    (eligible e = true ↔ (e.tags = [] ∧ e.date ≠ none)) ∧
    (eligible e = false → (phase2 site σ f s es).1[i]? = some e) ∧
    (eligible e = true → (phase2 site σ f s es).1[i]? =
      some { e with tags := _scrape_date_page_tags site (e.date.getD "") e.slug }) := by
  have hmap : (phase2 site σ f s es).1[i]? = some (backfillTags site e) := by
    rw [phase2_fst, List.getElem?_map, h]
    rfl
  refine ⟨by rw [phase2_fst]; exact List.length_map es _, ?_, ?_, ?_⟩
  · unfold eligible strTruthy
    cases hd : e.date with
    | none => simp
    | some d =>
      have hdne : d ≠ "" := fun hdd => hdate (by rw [hd, hdd])
      simp [List.isEmpty_iff, hdne]
  · intro hne
    rw [hmap]
    simp [backfillTags, hne]
  · intro hel
    rw [hmap]
    simp [backfillTags, hel]

/-- C4 witness: one eligible record, its tags backfilled from the per-date
page. -/
theorem phase2_frame_witness :
    (phase2 c4site Unit none () [c4entry]).1.length = [c4entry].length ∧
    (eligible c4entry = true ↔ (c4entry.tags = [] ∧ c4entry.date ≠ none)) ∧
    (eligible c4entry = false →
      (phase2 c4site Unit none () [c4entry]).1[0]? = some c4entry) ∧
    (eligible c4entry = true →
      (phase2 c4site Unit none () [c4entry]).1[0]? =
        some { c4entry with
          tags := _scrape_date_page_tags c4site (c4entry.date.getD "") c4entry.slug }) :=
  phase2_frame c4site Unit none () [c4entry] 0 c4entry (by decide) (by decide)

/-- C5 (amended): a decoded rating equals N/2 where N is the numeric
suffix of the first class token matching rated-N, hence is a nonnegative
multiple of one half; it lies in [0.5, 5.0] exactly when 1 <= N <= 10 —
the code enforces no range, so rated-0 decodes to 0 and rated-11 to 5.5;
and when no token matches the pattern the rating is absent. -/
theorem rating_decode_amended (cs cs2 : List String) (q : ℚ) (n : Nat)
    (hq : _parse_rating (some cs) = some q)
    (hn : cs.findSome? ratedSuffix = some n)
    (hmiss : cs2.findSome? ratedSuffix = none) :
    q = (n : ℚ) / 2 ∧ 0 ≤ q ∧
    ((1 ≤ n ∧ n ≤ 10) ↔ ((1 : ℚ) / 2 ≤ q ∧ q ≤ 5)) ∧
    _parse_rating (some cs2) = none := by
  have hq2 : _parse_rating (some cs) = some (half n) := by
    show (match cs.findSome? ratedSuffix with
          | some m => some (half m)
          | none => none) = some (half n)
    rw [hn]
  rw [hq2] at hq
  injection hq with hq
  subst hq
  have hv : half n = (n : ℚ) / 2 := half_eq n
  refine ⟨hv, ?_, ?_, ?_⟩
  · rw [hv]
    positivity
  · rw [hv]
    constructor
    · rintro ⟨ha, hb⟩
      have ha2 : (1 : ℚ) ≤ (n : ℚ) := by exact_mod_cast ha
      have hb2 : (n : ℚ) ≤ 10 := by exact_mod_cast hb
      constructor <;> linarith
    · rintro ⟨ha, hb⟩
      have ha2 : (1 : ℚ) ≤ (n : ℚ) := by linarith
      have hb2 : (n : ℚ) ≤ 10 := by linarith
      exact ⟨by exact_mod_cast ha2, by exact_mod_cast hb2⟩
  · show (match cs2.findSome? ratedSuffix with
          | some m => some (half m)
          | none => none) = none
    rw [hmiss]

/-- C5 witness: rated-7 decodes to 3.5, inside the range; tokens without
the numeric suffix decode to nothing. -/
theorem rating_decode_amended_witness :
    (half 7 : ℚ) = (7 : ℚ) / 2 ∧ (0 : ℚ) ≤ half 7 ∧
    ((1 ≤ 7 ∧ 7 ≤ 10) ↔ ((1 : ℚ) / 2 ≤ half 7 ∧ (half 7 : ℚ) ≤ 5)) ∧
    _parse_rating (some ["rated", "10x"]) = none :=
  rating_decode_amended ["rated-7"] ["rated", "10x"] (half 7) 7
    (by decide) (by decide) (by decide)

/-- C5 counterexample: the class token rated-0 matches the numeric-suffix
pattern and decodes to the rating 0, which is below the claimed lower
bound 0.5 (and is exactly the value the claim says can never occur). -/
theorem rating_range_counterexample :
    _parse_rating (some ["rated-0"]) = some 0 ∧ ¬ ((1 : ℚ) / 2 ≤ 0) := by
  constructor
  · decide
  · norm_num

/-- C6: every record parsed from a listing page has a non-empty title;
hence so does every record returned by scrape_user (phase 2 only touches
tags); and a row whose title does not parse yields no record at all. -/
theorem emitted_titles_nonempty (site : Site) (page : Nat) (σ : Type)
    (f : ProgressCb σ) (s0 : σ) (deep : Bool) (fuel : Nat)
    (es : List DiaryEntry) (s : σ) (tr : List Fetch)
    (e1 e2 : DiaryEntry) (r : Row)
    (h1 : e1 ∈ (_scrape_listing_page site page).1)
    (h2 : scrape_user site σ f s0 deep fuel = some (es, s, tr))
    (h3 : e2 ∈ es)
    (hr : rowTitle r = "") :
    e1.title ≠ "" ∧ e2.title ≠ "" ∧ parseRow r = none := by
  refine ⟨mem_listing_title h1, ?_, ?_⟩
  · rcases scrapeLoop_spec site σ f deep fuel 1 [] s0 [] es s tr (le_refl 1) h2 with
      ⟨rfl, _, _, _⟩ | ⟨P, _, hmap, _, _⟩
    · simp at h3
    · have hmem : clearTags e2 ∈ es.map clearTags := List.mem_map_of_mem _ h3
      rw [hmap] at hmem
      obtain ⟨e3, he3, hce⟩ := List.mem_map.mp hmem
      have htitle : e3.title = e2.title := by
        have hc2 := congrArg DiaryEntry.title hce
        simpa [clearTags] using hc2
      rw [List.nil_append] at he3
      obtain ⟨p, hp⟩ := mem_pagesConcat he3
      exact htitle ▸ mem_listing_title hp
  · simp [parseRow, hr]

/-- C6 witness: a one-page site with one titled row and one untitled row;
the untitled row is dropped, the titled record survives the scrape. -/
theorem emitted_titles_nonempty_witness :
    c6entry.title ≠ "" ∧ c6entry.title ≠ "" ∧ parseRow c6emptyRow = none :=
  emitted_titles_nonempty c6site 1 Unit none () false 1 [c6entry] ()
    [Fetch.listing 1] c6entry c6entry c6emptyRow
    (by decide) (by decide) (by decide) (by decide)

theorem datePageRows_skip_all (slug : String) (hs : slug ≠ "") :
    ∀ rows : List Row, (∀ r ∈ rows, slugSkip slug r = true) →
      datePageRows (some slug) rows = [] := by
  have htruthy : strTruthy (some slug) = true := by
    simp [strTruthy, hs]
  intro rows
  induction rows with
  | nil => intro _; rfl
  | cons r rest ih =>
    intro hall
    rw [datePageRows, if_pos htruthy,
      if_pos (show slugSkip ((some slug).getD "") r = true from
        hall r (List.mem_cons_self r rest))]
    exact ih (fun r2 h2 => hall r2 (List.mem_cons_of_mem _ h2))

theorem datePageRows_noSlug : ∀ rows : List Row,
    datePageRows none rows = (firstRowTags rows).getD [] := by
  intro rows
  induction rows with
  | nil => rfl
  | cons r rest ih =>
    rw [datePageRows, if_neg (by simp [strTruthy])]
    by_cases ht : (_parse_tags r.tagSels).isEmpty = true
    · rw [if_neg (by simp [ht]), ih]
      unfold firstRowTags
      rw [List.findSome?_cons]
      simp [ht]
    · have ht2 : (_parse_tags r.tagSels).isEmpty = false := by
        revert ht
        cases (_parse_tags r.tagSels).isEmpty <;> simp
      rw [if_pos (by rw [ht2]; rfl)]
      unfold firstRowTags
      rw [List.findSome?_cons]
      simp [ht2]

/-- C7 (amended): on a successfully fetched per-date page, when a truthy
slug is known and every row has a title link none of which contains the
slug, the result is the empty tag list (a row with no title link would
instead be treated as a match); when no slug is known, the result is the
tag list of the first row with a non-empty tag set, or [] if none has
one. -/
theorem date_page_tags_amended (site : Site) (date : String) (rows : List Row)
    (slug : String)
    (h0 : date ≠ "") (h1 : site.datePage date = some rows) (hs : slug ≠ "")
    (hall : ∀ r ∈ rows, slugSkip slug r = true) :
    _scrape_date_page_tags site date (some slug) = [] ∧
    _scrape_date_page_tags site date none = (firstRowTags rows).getD [] := by
  unfold _scrape_date_page_tags
  rw [if_neg h0, if_neg h0, h1]
  exact ⟨datePageRows_skip_all slug hs rows hall, datePageRows_noSlug rows⟩

/-- C7 witness: a page whose single row links a different film. -/
theorem date_page_tags_amended_witness :
    _scrape_date_page_tags c7wsite "2024-04-01" (some "slug-a") = [] ∧
    _scrape_date_page_tags c7wsite "2024-04-01" none = (firstRowTags [c7wrow]).getD [] :=
  date_page_tags_amended c7wsite "2024-04-01" [c7wrow] "slug-a"
    (by decide) (by decide) (by decide) (by decide)

/-- C7 counterexample: the per-date page holds a single row with no title
link (so no row link contains the slug "slug-a"), yet the function
returns the tags ["x"] of that row instead of the empty list the claim
demands. -/
theorem date_page_tags_counterexample :
    c7site.datePage "2024-02-28" = some [c7row] ∧
    c7row.titleA = none ∧
    _scrape_date_page_tags c7site "2024-02-28" (some "slug-a") = ["x"] := by
  decide

/-- C9 (amended): apart from the missing-value sentinel — a cell whose
stripped value is "" or the literal string "nan" decodes to [] — the CSV
tags field is decoded by splitting on comma, trimming whitespace and
dropping empty pieces, so "cinema, rainy-day" decodes to exactly
["cinema", "rainy-day"]; and the rewatch field is true exactly when it
equals "yes" case-insensitively after trimming. -/
theorem csv_adapter_amended (x s : String)
    (h1 : pyStrip x ≠ "") (h2 : pyStrip x ≠ "nan") :
    csvTags x = splitTrimDrop x ∧
    csvTags "cinema, rainy-day" = ["cinema", "rainy-day"] ∧
    (csvRewatch s = true ↔ pyLower (pyStrip s) = "yes") := by
  refine ⟨?_, by decide, ?_⟩
  · unfold csvTags
    rw [if_neg]
    intro hor
    rcases hor with hc | hc
    · exact h1 hc
    · exact h2 hc
  · unfold csvRewatch
    exact beq_iff_eq

/-- C9 witness: an ordinary two-tag cell and a rewatch cell. -/
theorem csv_adapter_amended_witness :
    csvTags "a, b" = splitTrimDrop "a, b" ∧
    csvTags "cinema, rainy-day" = ["cinema", "rainy-day"] ∧
    (csvRewatch " YES " = true ↔ pyLower (pyStrip " YES ") = "yes") :=
  csv_adapter_amended "a, b" " YES " (by decide) (by decide)

/-- C9 counterexample: the cell "nan" decodes to [] in the code, while the
split-trim-drop rule stated by the claim would decode it to ["nan"]. -/
theorem csv_tags_nan_counterexample :
    csvTags "nan" = [] ∧ splitTrimDrop "nan" = ["nan"] := by
  decide

/-- C10: the empty-page terminal rule is page-1 only — at any page p + 2
whose listing parses to zero records but still advertises a next page, the
loop keeps the records accumulated so far and proceeds to fetch page
p + 3. -/
theorem later_empty_page_continues (site : Site) (σ : Type) (f : ProgressCb σ)
    (deep : Bool) (fuel p : Nat) (acc : List DiaryEntry) (s : σ) (tr : List Fetch)
    (hE : pageEntries site (p + 2) = []) (hN : pageHasNext site (p + 2) = true) :
    scrapeLoop site σ f deep (fuel + 1) (p + 2) acc s tr =
      scrapeLoop site σ f deep fuel (p + 3) acc
        (notify f s ("Fetching diary page " ++ toString (p + 2) ++ "…") none)
        (tr ++ [Fetch.listing (p + 2)]) := by
  rw [scrapeLoop]
  have hbeq : ((p + 2) == 1) = false := by
    rw [beq_eq_false_iff_ne]
    omega
  simp [hE, hN, hbeq]

/-- C10 witness: a site listing an empty page 2 with a next anchor. -/
theorem later_empty_page_continues_witness :
    scrapeLoop c10site Unit none false (1 + 1) (0 + 2) [] () [] =
      scrapeLoop c10site Unit none false 1 (0 + 3) []
        (notify none () ("Fetching diary page " ++ toString (0 + 2) ++ "…") none)
        ([] ++ [Fetch.listing (0 + 2)]) :=
  later_empty_page_continues c10site Unit none false 1 0 [] () []
    (by decide) (by decide)

end LetterboxdStats
